import Mathlib

/-!
Verification of the lingua message-conversion core.

The data model, codecs, validators, deduplicator and span importer are
embedded below; `normalize_for_comparison` is translated from the Python
test helper of the same name in `tests/test_roundtrip.py`.  The native
conversion core (`lingua._lingua`) is not part of the Python sources, so
those operations are modelled from the specification, as marked on each
definition.
-/

/-- JSON-like values as produced by Python's `json.loads`: `none` is the
Python `None` (JSON `null`); objects keep field order, as Python dicts do. -/
inductive Json where
  | null : Json
  | bool (b : Bool) : Json
  | num (n : Int) : Json
  | str (s : String) : Json
  | arr (items : List Json) : Json
  | obj (fields : List (String × Json)) : Json

namespace Json

mutual

/-- Structural equality test on JSON values (field order significant,
matching Python `==` on lists; dict key order is canonical here). -/
def beqVal : Json → Json → Bool
  | .null, .null => true
  | .bool a, .bool b => a == b
  | .num a, .num b => a == b
  | .str a, .str b => a == b
  | .arr a, .arr b => beqItems a b
  | .obj a, .obj b => beqPairs a b
  | _, _ => false

/-- Elementwise equality test on JSON arrays. -/
def beqItems : List Json → List Json → Bool
  | [], [] => true
  | a :: as_, b :: bs => beqVal a b && beqItems as_ bs
  | _, _ => false

/-- Fieldwise equality test on JSON object entries. -/
def beqPairs : List (String × Json) → List (String × Json) → Bool
  | [], [] => true
  | (k, a) :: as_, (l, b) :: bs => k == l && beqVal a b && beqPairs as_ bs
  | _, _ => false

end

mutual

theorem beqVal_iff : ∀ a b : Json, beqVal a b = true ↔ a = b
  | .null, .null => by simp [beqVal]
  | .bool _, .bool _ => by simp [beqVal]
  | .num _, .num _ => by simp [beqVal]
  | .str _, .str _ => by simp [beqVal]
  | .arr a, .arr b => by simp [beqVal, beqItems_iff a b]
  | .obj a, .obj b => by simp [beqVal, beqPairs_iff a b]
  | .null, .bool _ | .null, .num _ | .null, .str _ | .null, .arr _ | .null, .obj _
  | .bool _, .null | .bool _, .num _ | .bool _, .str _ | .bool _, .arr _ | .bool _, .obj _
  | .num _, .null | .num _, .bool _ | .num _, .str _ | .num _, .arr _ | .num _, .obj _
  | .str _, .null | .str _, .bool _ | .str _, .num _ | .str _, .arr _ | .str _, .obj _
  | .arr _, .null | .arr _, .bool _ | .arr _, .num _ | .arr _, .str _ | .arr _, .obj _
  | .obj _, .null | .obj _, .bool _ | .obj _, .num _ | .obj _, .str _ | .obj _, .arr _ => by
      simp [beqVal]

theorem beqItems_iff : ∀ a b : List Json, beqItems a b = true ↔ a = b
  | [], [] => by simp [beqItems]
  | [], _ :: _ => by simp [beqItems]
  | _ :: _, [] => by simp [beqItems]
  | a :: as_, b :: bs => by
      simp [beqItems, beqVal_iff a b, beqItems_iff as_ bs]

theorem beqPairs_iff : ∀ a b : List (String × Json), beqPairs a b = true ↔ a = b
  | [], [] => by simp [beqPairs]
  | [], _ :: _ => by simp [beqPairs]
  | _ :: _, [] => by simp [beqPairs]
  | (k, a) :: as_, (l, b) :: bs => by
      simp [beqPairs, beqVal_iff a b, beqPairs_iff as_ bs, and_assoc]

end

instance : DecidableEq Json := fun a b =>
  decidable_of_iff (beqVal a b = true) (beqVal_iff a b)

end Json

/-! ## Normalization used by the round-trip tests

Translated from `normalize_for_comparison` in
`src/bindings/python/tests/test_roundtrip.py`.  The Python function maps
the `json.loads` value domain to itself, using `None` (here `Json.null`)
as the "stripped" marker: arrays first drop `None` elements and then
normalize the survivors (so a survivor may itself normalize to `None`
and stay); dicts drop every key whose normalized value is `None`; an
array or dict left empty becomes `None`; primitives pass through. -/

mutual

/-- Recursively remove null and empty values, as the Python test helper
does.  Source: `tests/test_roundtrip.py`, `normalize_for_comparison`. -/
def normalize_for_comparison : Json → Json
  | .null => .null
  | .bool b => .bool b
  | .num n => .num n
  | .str s => .str s
  | .arr items =>
      let kept := normalizeItems items
      if kept.isEmpty then .null else .arr kept
  | .obj fields =>
      let kept := normalizePairs fields
      if kept.isEmpty then .null else .obj kept

/-- Array branch: `[normalize_for_comparison(item) for item in obj if item is not None]`. -/
def normalizeItems : List Json → List Json
  | [] => []
  | x :: xs =>
      if x = .null then normalizeItems xs
      else normalize_for_comparison x :: normalizeItems xs

/-- Dict branch: keep `key` only when its normalized value is not `None`. -/
def normalizePairs : List (String × Json) → List (String × Json)
  | [] => []
  | (k, v) :: kvs =>
      let w := normalize_for_comparison v
      if w = .null then normalizePairs kvs
      else (k, w) :: normalizePairs kvs

end

mutual

/-- Every array element, recursively, is non-null and normalizes to
non-null; on this fragment normalization is idempotent. -/
def arraysClean : Json → Bool
  | .null => true
  | .bool _ => true
  | .num _ => true
  | .str _ => true
  | .arr items => arraysCleanItems items
  | .obj fields => arraysCleanPairs fields

def arraysCleanItems : List Json → Bool
  | [] => true
  | x :: xs =>
      !(x == .null) && !(normalize_for_comparison x == .null)
        && arraysClean x && arraysCleanItems xs

def arraysCleanPairs : List (String × Json) → Bool
  | [] => true
  | (_, v) :: kvs => arraysClean v && arraysCleanPairs kvs

end

mutual

theorem normalize_idem_of_clean : ∀ v : Json, arraysClean v = true →
    normalize_for_comparison (normalize_for_comparison v) = normalize_for_comparison v
  | .null, _ => rfl
  | .bool _, _ => rfl
  | .num _, _ => rfl
  | .str _, _ => rfl
  | .arr items, h => by
      have hi := normalizeItems_idem items (by simpa [arraysClean] using h)
      by_cases he : (normalizeItems items).isEmpty
      · simp [normalize_for_comparison, he]
      · simp [normalize_for_comparison, he, hi]
  | .obj fields, h => by
      have hp := normalizePairs_idem fields (by simpa [arraysClean] using h)
      by_cases he : (normalizePairs fields).isEmpty
      · simp [normalize_for_comparison, he]
      · simp [normalize_for_comparison, he, hp]

theorem normalizeItems_idem : ∀ items : List Json, arraysCleanItems items = true →
    normalizeItems (normalizeItems items) = normalizeItems items
  | [], _ => rfl
  | x :: xs, h => by
      simp only [arraysCleanItems, Bool.and_eq_true, beq_iff_eq, Bool.not_eq_eq_eq_not,
        Bool.not_true, decide_eq_false_iff_not] at h
      obtain ⟨⟨⟨hx, hnx⟩, hc⟩, hxs⟩ := h
      have hnx2 : normalize_for_comparison x ≠ Json.null := by
        intro hcontra; exact absurd hcontra (by simpa using hnx)
      have hx2 : x ≠ Json.null := by
        intro hcontra; exact absurd hcontra (by simpa using hx)
      simp [normalizeItems, hx2, hnx2, normalize_idem_of_clean x hc,
        normalizeItems_idem xs hxs]

theorem normalizePairs_idem : ∀ kvs : List (String × Json), arraysCleanPairs kvs = true →
    normalizePairs (normalizePairs kvs) = normalizePairs kvs
  | [], _ => rfl
  | (k, v) :: kvs, h => by
      simp only [arraysCleanPairs, Bool.and_eq_true] at h
      obtain ⟨hv, hkvs⟩ := h
      by_cases hn : normalize_for_comparison v = Json.null
      · simp [normalizePairs, hn, normalizePairs_idem kvs hkvs]
      · simp [normalizePairs, hn, normalize_idem_of_clean v hv,
          normalizePairs_idem kvs hkvs]

end

/-- C10 counterexample: normalization is not idempotent.  The array
`[[]]` keeps its non-null element, whose normalization is null, so one
pass yields `[null]` and a second pass strips it to null. -/
theorem normalize_for_comparison_not_idempotent :
    normalize_for_comparison (normalize_for_comparison (.arr [.arr []]))
      ≠ normalize_for_comparison (.arr [.arr []]) := by decide

/-- C10 (amended): `normalize_for_comparison` is idempotent on every
value whose arrays contain only non-null elements that normalize to
non-null (in particular on all array-free values); and it conflates
empty with absent: an empty array or dict normalizes to null, and a
dict field whose value normalizes to null yields the same normalized
dict as that field being absent entirely. -/
theorem normalize_for_comparison_props :
    (∀ v : Json, arraysClean v = true →
      normalize_for_comparison (normalize_for_comparison v) = normalize_for_comparison v)
    ∧ normalize_for_comparison (.arr []) = .null
    ∧ normalize_for_comparison (.obj []) = .null
    ∧ (∀ (k : String) (v : Json) (kvs : List (String × Json)),
        normalize_for_comparison v = .null →
        normalize_for_comparison (.obj ((k, v) :: kvs))
          = normalize_for_comparison (.obj kvs)) := by
  refine ⟨normalize_idem_of_clean, rfl, rfl, ?_⟩
  intro k v kvs hv
  simp [normalize_for_comparison, normalizePairs, hv]

/-- C10 witness: the amended properties at concrete inputs — a typical
message value is a fixed point after one pass, and a message whose
content is the empty array normalizes exactly as if the field were
absent. -/
theorem normalize_for_comparison_props_witness :
    normalize_for_comparison (normalize_for_comparison
        (.obj [("role", .str "user"), ("content", .arr [.str "hi"])]))
      = normalize_for_comparison (.obj [("role", .str "user"), ("content", .arr [.str "hi"])])
    ∧ normalize_for_comparison (.obj [("content", .arr []), ("role", .str "user")])
      = normalize_for_comparison (.obj [("role", .str "user")]) := by
  refine ⟨normalize_for_comparison_props.1 _ (by decide), ?_⟩
  exact normalize_for_comparison_props.2.2.2 "content" (.arr [])
    [("role", .str "user")] (by decide)

/-! ## The IR data model

Modelled from the spec (section 3): the native core holding these types
is not part of the Python sources.  A `Message` is one conversational
turn; `content` order is significant; `name` and `tool_call_id` are
correlation identifiers excluded from the deduplication key. -/

/-- Modelled from the spec: the closed role enumeration of a message. -/
inductive Role where
  | system : Role
  | user : Role
  | assistant : Role
  | tool : Role
deriving DecidableEq

/-- Modelled from the spec: an image is carried by URL or inline data. -/
inductive ImageSource where
  | url (u : String) : ImageSource
  | inlineData (data : String) : ImageSource
deriving DecidableEq

/-- Modelled from the spec: the tagged union of content block kinds. -/
inductive ContentBlock where
  | text (text : String) : ContentBlock
  | image (source : ImageSource) (media_type : String) : ContentBlock
  | toolUse (id : String) (name : String) (input : Json) : ContentBlock
  | toolResult (tool_use_id : String) (content : Json) (is_error : Bool) : ContentBlock
  | reasoning (text : String) (budget_tokens : Option Int) : ContentBlock
  | refusal (reason : String) : ContentBlock
  | serverToolUse (name : String) (input : Json) (result : Option Json) : ContentBlock
deriving DecidableEq

/-- Modelled from the spec: one conversational turn in the IR. -/
structure Message where
  role : Role
  content : List ContentBlock
  name : Option String
  tool_call_id : Option String
deriving DecidableEq

/-- Error raised when a codec cannot map a shape; carries the offending
field path, as the spec's `ConversionError` does. -/
inductive ConversionError where
  | conversion (path : String) : ConversionError
deriving DecidableEq

/-- Fail-fast traversal: the whole list converts, or the first failing
element's error is returned and nothing is. -/
def mapExcept (f : α → Except ε β) : List α → Except ε (List β)
  | [] => .ok []
  | x :: xs =>
    match f x with
    | .error e => .error e
    | .ok y =>
      match mapExcept f xs with
      | .error e => .error e
      | .ok ys => .ok (y :: ys)

/-- Whether an `Except` result is a success. -/
def exceptIsOk : Except ε α → Bool
  | .ok _ => true
  | .error _ => false

/-! ## Chat Completions codec

Modelled from the spec (sections 4.1, 4.2): the native importer and
exporter are not part of the Python sources.  The modelled subset covers
string-content shorthand, text content blocks, and the optional `name`
and `tool_call_id` fields; every other shape fails with a
`ConversionError` naming the offending field, as section 4.1 requires. -/

/-- Modelled from the spec: parse a Chat Completions role string. -/
def chatRoleOfString : String → Except ConversionError Role
  | "system" => .ok .system
  | "user" => .ok .user
  | "assistant" => .ok .assistant
  | "tool" => .ok .tool
  | _ => .error (.conversion "role")

/-- Serialize a role back to its wire string. -/
def stringOfRole : Role → String
  | .system => "system"
  | .user => "user"
  | .assistant => "assistant"
  | .tool => "tool"

/-- Modelled from the spec: import one typed content block; an
unrecognized shape fails with the offending field path. -/
def importChatBlock : Json → Except ConversionError ContentBlock
  | .obj [("type", .str "text"), ("text", .str s)] => .ok (.text s)
  | _ => .error (.conversion "content[].type")

/-- Modelled from the spec: content is either the plain-string shorthand
for a single text block or an array of typed blocks. -/
def importChatContent : Json → Except ConversionError (List ContentBlock)
  | .str s => .ok [.text s]
  | .arr blocks => mapExcept importChatBlock blocks
  | _ => .error (.conversion "content")

/-- Modelled from the spec: the optional correlation fields following
`role` and `content`. -/
def importChatExtras : List (String × Json) → Except ConversionError (Option String × Option String)
  | [] => .ok (none, none)
  | [("name", .str n)] => .ok (some n, none)
  | [("tool_call_id", .str t)] => .ok (none, some t)
  | [("name", .str n), ("tool_call_id", .str t)] => .ok (some n, some t)
  | _ => .error (.conversion "message")

/-- Modelled from the spec: import one Chat Completions message. -/
def importChatMessage : Json → Except ConversionError Message
  | .obj (("role", .str r) :: ("content", c) :: rest) => do
      let role ← chatRoleOfString r
      let blocks ← importChatContent c
      let extras ← importChatExtras rest
      .ok ⟨role, blocks, extras.1, extras.2⟩
  | _ => .error (.conversion "role")

/-- Modelled from the spec: batch import of Chat Completions messages;
in-order, all-or-nothing. -/
def chat_completions_messages_to_lingua (messages : List Json) :
    Except ConversionError (List Message) :=
  mapExcept importChatMessage messages

/-- Modelled from the spec: export one content block to its Chat
Completions shape; a block the provider cannot represent fails. -/
def exportChatBlock : ContentBlock → Except ConversionError Json
  | .text s => .ok (.obj [("type", .str "text"), ("text", .str s)])
  | _ => .error (.conversion "content[]")

/-- Modelled from the spec: a single text block serializes back to the
bare-string idiom; any other content serializes as a block array. -/
def exportChatContent : List ContentBlock → Except ConversionError Json
  | [.text s] => .ok (.str s)
  | blocks => (mapExcept exportChatBlock blocks).map .arr

/-- Modelled from the spec: export one IR message to Chat Completions
shape, omitting absent optional fields rather than emitting nulls. -/
def exportChatMessage (m : Message) : Except ConversionError Json := do
  let c ← exportChatContent m.content
  .ok (.obj (("role", .str (stringOfRole m.role)) :: ("content", c) ::
    ((match m.name with | some n => [("name", Json.str n)] | none => [])
      ++ (match m.tool_call_id with | some t => [("tool_call_id", Json.str t)] | none => []))))

/-- Modelled from the spec: batch export of IR messages. -/
def lingua_to_chat_completions_messages (messages : List Message) :
    Except ConversionError (List Json) :=
  mapExcept exportChatMessage messages

/-- C2: importing the single message with bare-string content "Hello"
yields exactly one IR message holding the single block `Text "Hello"`,
and exporting that IR message restores the bare-string form, not a
one-element block array. -/
theorem string_array_duality :
    chat_completions_messages_to_lingua
        [.obj [("role", .str "user"), ("content", .str "Hello")]]
      = .ok [⟨.user, [.text "Hello"], none, none⟩]
    ∧ lingua_to_chat_completions_messages [⟨.user, [.text "Hello"], none, none⟩]
      = .ok [.obj [("role", .str "user"), ("content", .str "Hello")]] :=
  ⟨rfl, rfl⟩

/-- Content in the array form whose export would restore the
bare-string idiom: exactly one text block. -/
def contentSingleTextArray : Json → Bool
  | .arr [.obj [("type", .str "text"), ("text", .str _)]] => true
  | _ => false

/-- A wire message whose `content` field is a one-element text-block
array. -/
def messageSingleTextArray : Json → Bool
  | .obj (_ :: ("content", c) :: _) => contentSingleTextArray c
  | _ => false

theorem mapExcept_singleton_iff (f : α → Except ε β) (x : α) (y : β) :
    mapExcept f [x] = .ok [y] ↔ f x = .ok y := by
  cases h : f x <;> simp [mapExcept, h]

theorem chatRole_round : ∀ (r : String) (ro : Role),
    chatRoleOfString r = .ok ro → stringOfRole ro = r := by
  intro r ro h
  unfold chatRoleOfString at h
  split at h <;> cases h <;> rfl

theorem chatBlock_shape : ∀ (b : Json) (cb : ContentBlock),
    importChatBlock b = .ok cb →
    ∃ s, b = .obj [("type", .str "text"), ("text", .str s)] ∧ cb = .text s := by
  intro b cb h
  unfold importChatBlock at h
  split at h <;> simp_all

theorem chatBlock_round : ∀ (b : Json) (cb : ContentBlock),
    importChatBlock b = .ok cb → exportChatBlock cb = .ok b := by
  intro b cb h
  obtain ⟨s, hb, hcb⟩ := chatBlock_shape b cb h
  subst hb; subst hcb; rfl

theorem chatBlocks_round : ∀ (bs : List Json) (cbs : List ContentBlock),
    mapExcept importChatBlock bs = .ok cbs →
    mapExcept exportChatBlock cbs = .ok bs := by
  intro bs
  induction bs with
  | nil =>
      intro cbs h
      simp only [mapExcept] at h
      cases h; rfl
  | cons b rest ih =>
      intro cbs h
      simp only [mapExcept] at h
      cases hb : importChatBlock b with
      | error e => rw [hb] at h; cases h
      | ok cb =>
          rw [hb] at h
          cases hr : mapExcept importChatBlock rest with
          | error e => rw [hr] at h; cases h
          | ok cbs2 =>
              rw [hr] at h
              cases h
              simp [mapExcept, chatBlock_round b cb hb, ih cbs2 hr]

theorem chatContent_round : ∀ (c : Json) (blocks : List ContentBlock),
    importChatContent c = .ok blocks → contentSingleTextArray c = false →
    exportChatContent blocks = .ok c := by
  intro c blocks h hs
  cases c with
  | str s =>
      simp only [importChatContent] at h
      cases h; rfl
  | arr bs =>
      simp only [importChatContent] at h
      have hexp := chatBlocks_round bs blocks h
      unfold exportChatContent
      split
      · exfalso
        simp only [mapExcept, exportChatBlock] at hexp
        cases hexp
        simp [contentSingleTextArray] at hs
      · rw [hexp]; rfl
  | null => simp [importChatContent] at h
  | bool b => simp [importChatContent] at h
  | num n => simp [importChatContent] at h
  | obj kvs => simp [importChatContent] at h

theorem chatExtras_round : ∀ (rest : List (String × Json)) (ex : Option String × Option String),
    importChatExtras rest = .ok ex →
    ((match ex.1 with | some n => [("name", Json.str n)] | none => [])
      ++ (match ex.2 with | some t => [("tool_call_id", Json.str t)] | none => [])) = rest := by
  intro rest ex h
  unfold importChatExtras at h
  split at h <;> cases h <;> rfl

theorem chatMessage_round : ∀ (m : Json) (im : Message),
    importChatMessage m = .ok im → messageSingleTextArray m = false →
    exportChatMessage im = .ok m := by
  intro m im h hs
  unfold importChatMessage at h
  split at h
  case h_1 r c rest =>
    simp only [messageSingleTextArray] at hs
    cases h1 : chatRoleOfString r with
    | error e => simp only [h1, bind, Except.bind] at h; cases h
    | ok role =>
        cases h2 : importChatContent c with
        | error e => simp only [h1, h2, bind, Except.bind] at h; cases h
        | ok blocks =>
            cases h3 : importChatExtras rest with
            | error e => simp only [h1, h2, h3, bind, Except.bind] at h; cases h
            | ok ex =>
                simp only [h1, h2, h3, bind, Except.bind] at h
                cases h
                have hc : exportChatContent blocks = .ok c :=
                  chatContent_round c blocks h2 hs
                simp only [exportChatMessage, bind, Except.bind, hc]
                rw [chatRole_round r role h1, chatExtras_round rest ex h3]
  case h_2 => cases h

/-- C1 counterexample: the claim fails as stated.  The message whose
content is a one-element text-block array is accepted by the importer,
but exporting the resulting IR message restores the bare-string idiom,
and normalization (which only strips nulls and empties) does not equate
the two shapes. -/
theorem chat_roundtrip_counterexample :
    chat_completions_messages_to_lingua
        [.obj [("role", .str "user"),
               ("content", .arr [.obj [("type", .str "text"), ("text", .str "Hello")]])]]
      = .ok [⟨.user, [.text "Hello"], none, none⟩]
    ∧ lingua_to_chat_completions_messages [⟨.user, [.text "Hello"], none, none⟩]
      = .ok [.obj [("role", .str "user"), ("content", .str "Hello")]]
    ∧ normalize_for_comparison (.obj [("role", .str "user"), ("content", .str "Hello")])
      ≠ normalize_for_comparison
          (.obj [("role", .str "user"),
                 ("content", .arr [.obj [("type", .str "text"), ("text", .str "Hello")]])]) :=
  ⟨rfl, rfl, by decide⟩

/-- C1 (amended): for every wire message the importer accepts whose
content is not a one-element text-block array (the shape the exporter
deliberately renders as a bare string), importing and re-exporting
yields a message equal to the original after normalization. -/
theorem chat_roundtrip_normalized :
    ∀ (m : Json) (im : Message),
      chat_completions_messages_to_lingua [m] = .ok [im] →
      messageSingleTextArray m = false →
      ∃ res, lingua_to_chat_completions_messages [im] = .ok [res]
        ∧ normalize_for_comparison res = normalize_for_comparison m := by
  intro m im h hs
  have h1 : importChatMessage m = .ok im := (mapExcept_singleton_iff _ _ _).1 h
  have h2 : exportChatMessage im = .ok m := chatMessage_round m im h1 hs
  exact ⟨m, (mapExcept_singleton_iff _ _ _).2 h2, rfl⟩

/-- C1 witness: the amended round trip at the concrete bare-string
"Hello" message. -/
theorem chat_roundtrip_normalized_witness :
    ∃ res, lingua_to_chat_completions_messages [⟨.user, [.text "Hello"], none, none⟩]
        = .ok [res]
      ∧ normalize_for_comparison res
          = normalize_for_comparison (.obj [("role", .str "user"), ("content", .str "Hello")]) :=
  chat_roundtrip_normalized (.obj [("role", .str "user"), ("content", .str "Hello")])
    ⟨.user, [.text "Hello"], none, none⟩ rfl rfl

/-- C7 helper: a successful fail-fast traversal relates input and output
pointwise, in order. -/
theorem mapExcept_ok_forall (f : α → Except ε β) :
    ∀ (xs : List α) (ys : List β), mapExcept f xs = .ok ys →
      List.Forall₂ (fun x y => f x = .ok y) xs ys := by
  intro xs
  induction xs with
  | nil =>
      intro ys h
      simp only [mapExcept] at h
      cases h
      exact List.Forall₂.nil
  | cons x rest ih =>
      intro ys h
      simp only [mapExcept] at h
      cases hx : f x with
      | error e => rw [hx] at h; cases h
      | ok y =>
          rw [hx] at h
          cases hr : mapExcept f rest with
          | error e => rw [hr] at h; cases h
          | ok ys2 =>
              rw [hr] at h
              cases h
              exact List.Forall₂.cons hx (ih ys2 hr)

/-- C7 helper: one failing element makes the whole traversal fail. -/
theorem mapExcept_any_error (f : α → Except ε β) :
    ∀ xs : List α, (xs.any fun x => !(exceptIsOk (f x))) = true →
      ∃ e, mapExcept f xs = .error e := by
  intro xs
  induction xs with
  | nil => intro h; simp at h
  | cons x rest ih =>
      intro h
      cases hx : f x with
      | error e => exact ⟨e, by simp [mapExcept, hx]⟩
      | ok y =>
          have hrest : (rest.any fun x => !(exceptIsOk (f x))) = true := by
            simp only [List.any_cons, Bool.or_eq_true] at h
            rcases h with h | h
            · rw [hx] at h; simp [exceptIsOk] at h
            · exact h
          obtain ⟨e, he⟩ := ih hrest
          exact ⟨e, by simp [mapExcept, hx, he]⟩

/-- C7: batch import is atomic — a successful call returns one IR
message per input element in input order, and any failing element makes
the whole call return an error (no partial output). -/
theorem chat_import_atomicity :
    (∀ (msgs : List Json) (ims : List Message),
      chat_completions_messages_to_lingua msgs = .ok ims →
      List.Forall₂ (fun m im => importChatMessage m = .ok im) msgs ims)
    ∧ (∀ msgs : List Json,
        (msgs.any fun m => !(exceptIsOk (importChatMessage m))) = true →
        ∃ e, chat_completions_messages_to_lingua msgs = .error e) :=
  ⟨fun msgs ims h => mapExcept_ok_forall importChatMessage msgs ims h,
   fun msgs h => mapExcept_any_error importChatMessage msgs h⟩

/-- C7 witness: a successful concrete batch is related pointwise, and a
batch containing one malformed element fails as a whole. -/
theorem chat_import_atomicity_witness :
    List.Forall₂ (fun m im => importChatMessage m = .ok im)
      [Json.obj [("role", Json.str "user"), ("content", Json.str "Hello")]]
      [⟨Role.user, [ContentBlock.text "Hello"], none, none⟩]
    ∧ ∃ e, chat_completions_messages_to_lingua
        [Json.obj [("role", Json.str "user"), ("content", Json.str "Hello")], Json.null]
        = .error e :=
  ⟨chat_import_atomicity.1 _ _ rfl, chat_import_atomicity.2 _ (by decide)⟩

/-! ## Deduplicator

Modelled from the spec (section 4.4): the native `deduplicate_messages`
is not part of the Python sources.  One left-to-right pass; a message is
dropped iff it agrees with the previously kept message on the
`(role, content)` key; `name` and `tool_call_id` are ignored. -/

/-- Modelled from the spec: scan with the previously kept message. -/
def dedupKeep (prev : Message) : List Message → List Message
  | [] => []
  | m :: rest =>
      if m.role = prev.role ∧ m.content = prev.content then dedupKeep prev rest
      else m :: dedupKeep m rest

/-- Modelled from the spec: collapse consecutive duplicate messages,
keeping the first occurrence. -/
def deduplicate_messages : List Message → List Message
  | [] => []
  | m :: rest => m :: dedupKeep m rest

theorem dedupKeep_destutter :
    ∀ (l : List Message) (prev : Message),
      List.destutter' (fun a b => ¬(b.role = a.role ∧ b.content = a.content)) prev l
        = prev :: dedupKeep prev l := by
  intro l
  induction l with
  | nil => intro prev; rfl
  | cons m rest ih =>
      intro prev
      by_cases hk : m.role = prev.role ∧ m.content = prev.content
      · rw [List.destutter', if_neg (by simpa using hk), dedupKeep, if_pos hk, ih prev]
      · rw [List.destutter', if_pos (by simpa using hk), dedupKeep, if_neg hk, ih m]

/-- C3: deduplication is the single-pass adjacent collapse — the empty
list maps to itself, the pass is exactly `List.destutter` by the
`(role, content)` key (a message is dropped iff it matches the
immediately preceding kept message; non-adjacent duplicates survive),
and on `[A, A, B, B, A]` with distinct keys the result is `[A, B, A]`. -/
theorem deduplicate_messages_spec :
    deduplicate_messages [] = []
    ∧ (∀ l : List Message,
        deduplicate_messages l
          = List.destutter (fun a b => ¬(b.role = a.role ∧ b.content = a.content)) l)
    ∧ (∀ A B : Message, ¬(A.role = B.role ∧ A.content = B.content) →
        deduplicate_messages [A, A, B, B, A] = [A, B, A]) := by
  refine ⟨rfl, ?_, ?_⟩
  · intro l
    cases l with
    | nil => rfl
    | cons m rest => rw [List.destutter, dedupKeep_destutter rest m]; rfl
  · intro A B h
    have h2 : ¬(B.role = A.role ∧ B.content = A.content) :=
      fun hc => h ⟨hc.1.symm, hc.2.symm⟩
    simp [deduplicate_messages, dedupKeep, h, h2]

/-- C3 witness: the `[A, A, B, B, A]` law at two concrete messages with
distinct text content. -/
theorem deduplicate_messages_spec_witness :
    deduplicate_messages
      [⟨Role.user, [ContentBlock.text "a"], none, none⟩,
       ⟨Role.user, [ContentBlock.text "a"], none, none⟩,
       ⟨Role.assistant, [ContentBlock.text "b"], none, none⟩,
       ⟨Role.assistant, [ContentBlock.text "b"], none, none⟩,
       ⟨Role.user, [ContentBlock.text "a"], none, none⟩]
    = [⟨Role.user, [ContentBlock.text "a"], none, none⟩,
       ⟨Role.assistant, [ContentBlock.text "b"], none, none⟩,
       ⟨Role.user, [ContentBlock.text "a"], none, none⟩] :=
  deduplicate_messages_spec.2.2
    ⟨Role.user, [ContentBlock.text "a"], none, none⟩
    ⟨Role.assistant, [ContentBlock.text "b"], none, none⟩ (by decide)

theorem dedupKeep_idem : ∀ (l : List Message) (prev : Message),
    dedupKeep prev (dedupKeep prev l) = dedupKeep prev l := by
  intro l
  induction l with
  | nil => intro prev; rfl
  | cons m rest ih =>
      intro prev
      by_cases hk : m.role = prev.role ∧ m.content = prev.content
      · rw [dedupKeep, if_pos hk]
        exact ih prev
      · rw [dedupKeep, if_neg hk, dedupKeep, if_neg hk, ih m]

/-- C4: deduplication is idempotent. -/
theorem deduplicate_messages_idempotent :
    ∀ l : List Message,
      deduplicate_messages (deduplicate_messages l) = deduplicate_messages l := by
  intro l
  cases l with
  | nil => rfl
  | cons m rest =>
      show deduplicate_messages (m :: dedupKeep m rest) = m :: dedupKeep m rest
      rw [deduplicate_messages, dedupKeep_idem rest m]

/-! ## Schema validators

Modelled from the spec (sections 4.3 and 7): the native validators and
their serde JSON parsing are not part of the Python sources.  A
validator first parses the input text (failure class `ParseError`), then
checks the provider's required-field/type/enum contract on the parsed
value (failure class `SchemaValidationError`, carrying the offending
field path). -/

/-- Modelled from the spec: the two validator failure classes. -/
inductive ValidationError where
  | parseError (msg : String) : ValidationError
  | schemaValidationError (path : String) : ValidationError
deriving DecidableEq

/-- Whether a validation error is the not-well-formed-JSON class. -/
def isParseErr : ValidationError → Bool
  | .parseError _ => true
  | .schemaValidationError _ => false

/-- Skip JSON whitespace. -/
def skipWs : List Char → List Char
  | [] => []
  | c :: cs => if c = ' ' ∨ c = '\n' ∨ c = '\t' ∨ c = '\r' then skipWs cs else c :: cs

/-- Single-character escapes accepted inside string literals. -/
def unescapeChar (c : Char) : Option Char :=
  if c = '"' ∨ c = '\\' ∨ c = '/' then some c
  else if c = 'n' then some '\n'
  else if c = 't' then some '\t'
  else if c = 'r' then some '\r'
  else none

/-- Read the remainder of a string literal after the opening quote. -/
def readStringChars : List Char → Option (List Char × List Char)
  | '"' :: rest => some ([], rest)
  | '\\' :: e :: rest => do
      let c ← unescapeChar e
      let (s, r) ← readStringChars rest
      some (c :: s, r)
  | c :: rest => do
      let (s, r) ← readStringChars rest
      some (c :: s, r)
  | [] => none

/-- Read a maximal run of decimal digits. -/
def readDigits : List Char → (List Char × List Char)
  | [] => ([], [])
  | c :: cs =>
      if c.isDigit then
        let (d, r) := readDigits cs
        (c :: d, r)
      else ([], c :: cs)

/-- Decimal value of a digit run. -/
def digitsVal (ds : List Char) : Nat :=
  ds.foldl (fun acc c => 10 * acc + (c.toNat - 48)) 0

mutual

/-- Modelled from the spec: fuel-bounded JSON value grammar (objects,
arrays, strings, integers, literals) as the well-formedness notion
behind `ParseError`. -/
def parseValue : Nat → List Char → Option (Json × List Char)
  | 0, _ => none
  | fuel + 1, cs =>
      match skipWs cs with
      | 'n' :: 'u' :: 'l' :: 'l' :: rest => some (.null, rest)
      | 't' :: 'r' :: 'u' :: 'e' :: rest => some (.bool true, rest)
      | 'f' :: 'a' :: 'l' :: 's' :: 'e' :: rest => some (.bool false, rest)
      | '"' :: rest =>
          match readStringChars rest with
          | some (s, r) => some (.str (String.mk s), r)
          | none => none
      | '[' :: rest =>
          match skipWs rest with
          | ']' :: r2 => some (.arr [], r2)
          | more =>
              match parseElements fuel more with
              | some (vs, r2) => some (.arr vs, r2)
              | none => none
      | '{' :: rest =>
          match skipWs rest with
          | '}' :: r2 => some (.obj [], r2)
          | more =>
              match parseMembers fuel more with
              | some (kvs, r2) => some (.obj kvs, r2)
              | none => none
      | '-' :: more =>
          match readDigits more with
          | ([], _) => none
          | (ds, r) => some (.num (-(digitsVal ds : Int)), r)
      | c :: more =>
          if c.isDigit then
            match readDigits (c :: more) with
            | ([], _) => none
            | (ds, r) => some (.num (digitsVal ds), r)
          else none
      | [] => none

/-- Comma-separated array elements up to the closing bracket. -/
def parseElements : Nat → List Char → Option (List Json × List Char)
  | 0, _ => none
  | fuel + 1, cs => do
      let (v, r) ← parseValue fuel cs
      match skipWs r with
      | ',' :: r2 => do
          let (vs, r3) ← parseElements fuel r2
          some (v :: vs, r3)
      | ']' :: r2 => some ([v], r2)
      | _ => none

/-- Comma-separated object members up to the closing brace. -/
def parseMembers : Nat → List Char → Option (List (String × Json) × List Char)
  | 0, _ => none
  | fuel + 1, cs =>
      match skipWs cs with
      | '"' :: rest => do
          let (k, r) ← readStringChars rest
          match skipWs r with
          | ':' :: r2 => do
              let (v, r3) ← parseValue fuel r2
              match skipWs r3 with
              | ',' :: r4 => do
                  let (kvs, r5) ← parseMembers fuel r4
                  some ((String.mk k, v) :: kvs, r5)
              | '}' :: r4 => some ([(String.mk k, v)], r4)
              | _ => none
          | _ => none
      | _ => none

end

/-- Modelled from the spec: parse a whole JSON document; `none` is the
`ParseError` condition. -/
def parseJson (s : String) : Option Json :=
  match parseValue (s.length + 1) s.data with
  | some (v, rest) => if skipWs rest = [] then some v else none
  | none => none

/-- First-match association-list lookup (Rust/serde object field access). -/
def lookupField : List (String × Json) → String → Option Json
  | [], _ => none
  | (k, v) :: kvs, key => if k = key then some v else lookupField kvs key

/-- Required string field. -/
def requireStr (kvs : List (String × Json)) (key : String) : Except ValidationError String :=
  match lookupField kvs key with
  | some (.str s) => .ok s
  | _ => .error (.schemaValidationError key)

/-- Required integer field. -/
def requireInt (kvs : List (String × Json)) (key : String) : Except ValidationError Int :=
  match lookupField kvs key with
  | some (.num n) => .ok n
  | _ => .error (.schemaValidationError key)

/-- Required array field. -/
def requireArr (kvs : List (String × Json)) (key : String) : Except ValidationError (List Json) :=
  match lookupField kvs key with
  | some (.arr items) => .ok items
  | _ => .error (.schemaValidationError key)

/-- Modelled from the spec: a wire message must be an object with a role
from the provider's enumeration and, when present, a string-or-array
content field. -/
def checkWireMessage (roles : List String) : Json → Except ValidationError Unit
  | .obj kvs =>
      match lookupField kvs "role" with
      | some (.str r) =>
          if roles.contains r then
            match lookupField kvs "content" with
            | some (.str _) => .ok ()
            | some (.arr _) => .ok ()
            | some _ => .error (.schemaValidationError "messages[].content")
            | none => .ok ()
          else .error (.schemaValidationError "messages[].role")
      | _ => .error (.schemaValidationError "messages[].role")
  | _ => .error (.schemaValidationError "messages[]")

/-- Check every element, surfacing the first failure. -/
def checkAll (f : Json → Except ValidationError Unit) : List Json → Except ValidationError Unit
  | [] => .ok ()
  | x :: xs => do
      let _ ← f x
      checkAll f xs

/-- Modelled from the spec: OpenAI Chat Completions request shape. -/
def checkOpenAIRequest (v : Json) : Except ValidationError Json :=
  match v with
  | .obj kvs => do
      let _ ← requireStr kvs "model"
      let msgs ← requireArr kvs "messages"
      let _ ← checkAll (checkWireMessage ["system", "user", "assistant", "tool"]) msgs
      .ok v
  | _ => .error (.schemaValidationError "$")

/-- Modelled from the spec: OpenAI Chat Completions response shape. -/
def checkOpenAIResponse (v : Json) : Except ValidationError Json :=
  match v with
  | .obj kvs => do
      let _ ← requireStr kvs "id"
      let ob ← requireStr kvs "object"
      if ob = "chat.completion" then do
        let _ ← requireInt kvs "created"
        let _ ← requireStr kvs "model"
        let _ ← requireArr kvs "choices"
        .ok v
      else .error (.schemaValidationError "object")
  | _ => .error (.schemaValidationError "$")

/-- Modelled from the spec: Anthropic Messages request shape — requests
require `max_tokens`, and roles are only `user`/`assistant`. -/
def checkAnthropicRequest (v : Json) : Except ValidationError Json :=
  match v with
  | .obj kvs => do
      let _ ← requireStr kvs "model"
      let _ ← requireInt kvs "max_tokens"
      let msgs ← requireArr kvs "messages"
      let _ ← checkAll (checkWireMessage ["user", "assistant"]) msgs
      .ok v
  | _ => .error (.schemaValidationError "$")

/-- Modelled from the spec: validate a JSON string as an OpenAI request. -/
def validate_openai_request (json_str : String) : Except ValidationError Json :=
  match parseJson json_str with
  | none => .error (.parseError "invalid JSON")
  | some v => checkOpenAIRequest v

/-- Modelled from the spec: validate a JSON string as an OpenAI response. -/
def validate_openai_response (json_str : String) : Except ValidationError Json :=
  match parseJson json_str with
  | none => .error (.parseError "invalid JSON")
  | some v => checkOpenAIResponse v

/-- Modelled from the spec: validate a JSON string as an Anthropic request. -/
def validate_anthropic_request (json_str : String) : Except ValidationError Json :=
  match parseJson json_str with
  | none => .error (.parseError "invalid JSON")
  | some v => checkAnthropicRequest v

theorem requireStr_err (kvs : List (String × Json)) (key : String) (e : ValidationError) :
    requireStr kvs key = .error e → e = .schemaValidationError key := by
  intro h
  unfold requireStr at h
  split at h
  all_goals cases h
  all_goals rfl

theorem requireInt_err (kvs : List (String × Json)) (key : String) (e : ValidationError) :
    requireInt kvs key = .error e → e = .schemaValidationError key := by
  intro h
  unfold requireInt at h
  split at h
  all_goals cases h
  all_goals rfl

theorem requireArr_err (kvs : List (String × Json)) (key : String) (e : ValidationError) :
    requireArr kvs key = .error e → e = .schemaValidationError key := by
  intro h
  unfold requireArr at h
  split at h
  all_goals cases h
  all_goals rfl

theorem requireInt_none (kvs : List (String × Json)) (key : String) :
    lookupField kvs key = none → requireInt kvs key = .error (.schemaValidationError key) := by
  intro h
  unfold requireInt
  rw [h]

theorem checkWireMessage_err (roles : List String) (v : Json) (e : ValidationError) :
    checkWireMessage roles v = .error e → isParseErr e = false := by
  intro h
  unfold checkWireMessage at h
  repeat' split at h
  all_goals cases h
  all_goals rfl

theorem checkAll_err (f : Json → Except ValidationError Unit)
    (hf : ∀ (x : Json) (e2 : ValidationError), f x = .error e2 → isParseErr e2 = false) :
    ∀ (xs : List Json) (e : ValidationError),
      checkAll f xs = .error e → isParseErr e = false := by
  intro xs
  induction xs with
  | nil => intro e h; cases h
  | cons x rest ih =>
      intro e h
      cases hx : f x with
      | error e2 =>
          simp only [checkAll, hx, bind, Except.bind] at h
          cases h
          exact hf x _ hx
      | ok u =>
          simp only [checkAll, hx, bind, Except.bind] at h
          exact ih e h

theorem checkOpenAIRequest_err (v : Json) (e : ValidationError) :
    checkOpenAIRequest v = .error e → isParseErr e = false := by
  intro h
  unfold checkOpenAIRequest at h
  split at h
  case h_1 kvs =>
    cases h1 : requireStr kvs "model" with
    | error e1 =>
        simp only [h1, bind, Except.bind] at h
        cases h
        rw [requireStr_err kvs "model" _ h1]
        rfl
    | ok m =>
        cases h2 : requireArr kvs "messages" with
        | error e2 =>
            simp only [h1, h2, bind, Except.bind] at h
            cases h
            rw [requireArr_err kvs "messages" _ h2]
            rfl
        | ok msgs =>
            cases h3 : checkAll (checkWireMessage ["system", "user", "assistant", "tool"]) msgs with
            | error e3 =>
                simp only [h1, h2, h3, bind, Except.bind] at h
                cases h
                exact checkAll_err _ (checkWireMessage_err _) msgs _ h3
            | ok u =>
                simp only [h1, h2, h3, bind, Except.bind] at h
                cases h
  case h_2 => cases h; rfl

/-- C5: malformed input text makes the validator fail with the
`ParseError` class — and only malformed input does: every error of the
parse class implies the text was not well-formed JSON, so the two
failure classes are distinguishable by the error the validator returns. -/
theorem validate_openai_request_parse_error :
    (∀ s : String, parseJson s = none →
      validate_openai_request s = .error (.parseError "invalid JSON"))
    ∧ (∀ (s : String) (e : ValidationError),
        validate_openai_request s = .error e → isParseErr e = true →
        parseJson s = none) := by
  constructor
  · intro s h
    unfold validate_openai_request
    rw [h]
  · intro s e h hp
    unfold validate_openai_request at h
    cases hpj : parseJson s with
    | none => rfl
    | some v =>
        rw [hpj] at h
        rw [checkOpenAIRequest_err v e h] at hp
        cases hp

/-- C5 witness: the literal text "invalid json" is rejected with the
parse class, and conversely that parse-class rejection certifies the
text is not well-formed JSON. -/
theorem validate_openai_request_parse_error_witness :
    validate_openai_request "invalid json" = .error (.parseError "invalid JSON")
    ∧ parseJson "invalid json" = none :=
  ⟨validate_openai_request_parse_error.1 "invalid json" rfl,
   validate_openai_request_parse_error.2 "invalid json" (.parseError "invalid JSON")
     rfl rfl⟩

/-- Whether an object value carries the given key. -/
def hasField (v : Json) (key : String) : Bool :=
  match v with
  | .obj kvs => (lookupField kvs key).isSome
  | _ => false

/-- A representative well-formed Anthropic Messages response document. -/
def anthropicResponseJson : String :=
  "\x7b\"id\":\"msg_01\",\"type\":\"message\",\"role\":\"assistant\",\"content\":[\x7b\"type\":\"text\",\"text\":\"Hello!\"\x7d],\"model\":\"claude-3-5-sonnet\",\"stop_reason\":\"end_turn\",\"stop_sequence\":null,\"usage\":\x7b\"input_tokens\":12,\"output_tokens\":6\x7d\x7d"

/-- A representative well-formed OpenAI Chat Completions request. -/
def openaiRequestJson : String :=
  "\x7b\"model\":\"gpt-4\",\"messages\":[\x7b\"role\":\"user\",\"content\":\"Hello\"\x7d]\x7d"

set_option maxRecDepth 16384 in
/-- C6: a request document without `max_tokens` (such as any OpenAI
request) is rejected by the Anthropic request validator with the schema
class, and a well-formed Anthropic response is rejected by the OpenAI
response validator with the schema class. -/
theorem cross_provider_rejection :
    (∀ (s : String) (v : Json), parseJson s = some v →
      hasField v "max_tokens" = false →
      ∃ p, validate_anthropic_request s = .error (.schemaValidationError p))
    ∧ ∃ p, validate_openai_response anthropicResponseJson
        = .error (.schemaValidationError p) := by
  constructor
  · intro s v hp hm
    unfold validate_anthropic_request
    rw [hp]
    cases v with
    | obj kvs =>
        have hnone : lookupField kvs "max_tokens" = none := by
          cases hl : lookupField kvs "max_tokens" with
          | none => rfl
          | some w => simp [hasField, hl] at hm
        cases h1 : requireStr kvs "model" with
        | error e1 =>
            have he := requireStr_err kvs "model" e1 h1
            subst he
            exact ⟨"model", by simp only [checkAnthropicRequest, h1, bind, Except.bind]⟩
        | ok m =>
            exact ⟨"max_tokens", by
              simp only [checkAnthropicRequest, h1, bind, Except.bind,
                requireInt_none kvs "max_tokens" hnone]⟩
    | null => exact ⟨"$", rfl⟩
    | bool b => exact ⟨"$", rfl⟩
    | num n => exact ⟨"$", rfl⟩
    | str s2 => exact ⟨"$", rfl⟩
    | arr items => exact ⟨"$", rfl⟩
  · exact ⟨"object", rfl⟩

/-- C6 witness: the schema-class rejection at the concrete OpenAI
request document, which has no `max_tokens` field. -/
theorem cross_provider_rejection_witness :
    ∃ p, validate_anthropic_request openaiRequestJson
      = .error (.schemaValidationError p) :=
  cross_provider_rejection.1 openaiRequestJson
    (.obj [("model", .str "gpt-4"),
           ("messages", .arr [.obj [("role", .str "user"), ("content", .str "Hello")]])])
    (by decide) (by decide)

/-! ## Span importer

Modelled from the spec (section 4.5) and the Python docstrings: the
native span importer is not part of the Python sources.  Each span
carries optional provider-unlabeled `input`/`output` payloads; per
present field the candidate importers (OpenAI Chat Completions, OpenAI
Responses, Anthropic — the fixed priority order named in the
`import_messages_from_spans` docstring) are tried in order, and on
exhaustion the field is skipped rather than aborting the batch. -/

/-- Modelled from the spec: parse an OpenAI Responses role string. -/
def responsesRoleOfString : String → Except ConversionError Role
  | "system" => .ok .system
  | "user" => .ok .user
  | "assistant" => .ok .assistant
  | _ => .error (.conversion "role")

/-- Modelled from the spec: import one Responses content block. -/
def importResponsesBlock : Json → Except ConversionError ContentBlock
  | .obj [("type", .str "input_text"), ("text", .str s)] => .ok (.text s)
  | .obj [("type", .str "output_text"), ("text", .str s)] => .ok (.text s)
  | _ => .error (.conversion "content[].type")

/-- Modelled from the spec: Responses content, string or block array. -/
def importResponsesContent : Json → Except ConversionError (List ContentBlock)
  | .str s => .ok [.text s]
  | .arr blocks => mapExcept importResponsesBlock blocks
  | _ => .error (.conversion "content")

/-- Modelled from the spec: import one Responses API input item. -/
def importResponsesMessage : Json → Except ConversionError Message
  | .obj [("type", .str "message"), ("role", .str r), ("content", c)] => do
      let role ← responsesRoleOfString r
      let blocks ← importResponsesContent c
      .ok ⟨role, blocks, none, none⟩
  | _ => .error (.conversion "type")

/-- Modelled from the spec: batch import of Responses API items. -/
def responses_messages_to_lingua (items : List Json) :
    Except ConversionError (List Message) :=
  mapExcept importResponsesMessage items

/-- Modelled from the spec: parse an Anthropic role string — requests
allow only `user` and `assistant`. -/
def anthropicRoleOfString : String → Except ConversionError Role
  | "user" => .ok .user
  | "assistant" => .ok .assistant
  | _ => .error (.conversion "role")

/-- Modelled from the spec: import one Anthropic content block. -/
def importAnthropicBlock : Json → Except ConversionError ContentBlock
  | .obj [("type", .str "text"), ("text", .str s)] => .ok (.text s)
  | _ => .error (.conversion "content[].type")

/-- Modelled from the spec: Anthropic content, string or block array. -/
def importAnthropicContent : Json → Except ConversionError (List ContentBlock)
  | .str s => .ok [.text s]
  | .arr blocks => mapExcept importAnthropicBlock blocks
  | _ => .error (.conversion "content")

/-- Modelled from the spec: import one Anthropic message. -/
def importAnthropicMessage : Json → Except ConversionError Message
  | .obj [("role", .str r), ("content", c)] => do
      let role ← anthropicRoleOfString r
      let blocks ← importAnthropicContent c
      .ok ⟨role, blocks, none, none⟩
  | _ => .error (.conversion "role")

/-- Modelled from the spec: batch import of Anthropic messages. -/
def anthropic_messages_to_lingua (messages : List Json) :
    Except ConversionError (List Message) :=
  mapExcept importAnthropicMessage messages

/-- A span field's payload must be an array of Chat Completions messages. -/
def chatPayloadImport (v : Json) : Except ConversionError (List Message) :=
  match v with
  | .arr ms => chat_completions_messages_to_lingua ms
  | _ => .error (.conversion "payload")

/-- A span field's payload must be an array of Responses API items. -/
def responsesPayloadImport (v : Json) : Except ConversionError (List Message) :=
  match v with
  | .arr items => responses_messages_to_lingua items
  | _ => .error (.conversion "payload")

/-- A span field's payload must be an array of Anthropic messages. -/
def anthropicPayloadImport (v : Json) : Except ConversionError (List Message) :=
  match v with
  | .arr ms => anthropic_messages_to_lingua ms
  | _ => .error (.conversion "payload")

/-- Modelled from the spec: the fixed, ordered candidate list used for
format sniffing. -/
def candidateImporters : List (Json → Except ConversionError (List Message)) :=
  [chatPayloadImport, responsesPayloadImport, anthropicPayloadImport]

/-- A telemetry record with optional provider-unlabeled payloads. -/
structure Span where
  input : Option Json
  output : Option Json

/-- Try each candidate importer in order; the first success wins. -/
def sniffWith : List (Json → Except ConversionError (List Message)) → Json →
    Option (List Message)
  | [], _ => none
  | f :: fs, v =>
      match f v with
      | .ok ms => some ms
      | .error _ => sniffWith fs v

/-- Modelled from the spec: a present field contributes the messages of
the first candidate that accepts it, and nothing on exhaustion. -/
def importSpanField : Option Json → List Message
  | none => []
  | some v => (sniffWith candidateImporters v).getD []

/-- Modelled from the spec: best-effort extraction over all spans, in
span order, `input` before `output` within a span. -/
def import_messages_from_spans : List Span → List Message
  | [] => []
  | s :: rest =>
      importSpanField s.input ++ importSpanField s.output
        ++ import_messages_from_spans rest

/-- Modelled from the spec: the convenience composition of span import
and deduplication. -/
def import_and_deduplicate_messages (spans : List Span) : List Message :=
  deduplicate_messages (import_messages_from_spans spans)

theorem sniffWith_all_fail :
    ∀ (fs : List (Json → Except ConversionError (List Message))) (v : Json),
      (fs.all fun f => !(exceptIsOk (f v))) = true → sniffWith fs v = none := by
  intro fs
  induction fs with
  | nil => intro v h; rfl
  | cons f rest ih =>
      intro v h
      simp only [List.all_cons, Bool.and_eq_true] at h
      cases hf : f v with
      | ok ms => rw [hf] at h; simp [exceptIsOk] at h
      | error e => simp only [sniffWith, hf]; exact ih v h.2

/-- C8: span import is best-effort and order-preserving — each span
contributes its `input`-derived messages, then its `output`-derived
messages, then the rest of the batch; a present field tries the
candidates in priority order (first success wins, a failure falls
through to the next candidate); a field every candidate rejects is
skipped, contributing nothing instead of aborting; an absent field
contributes nothing. -/
theorem span_import_best_effort :
    (∀ (s : Span) (rest : List Span),
      import_messages_from_spans (s :: rest)
        = importSpanField s.input ++ importSpanField s.output
            ++ import_messages_from_spans rest)
    ∧ (∀ (f : Json → Except ConversionError (List Message))
         (fs : List (Json → Except ConversionError (List Message)))
         (v : Json) (ms : List Message),
        f v = .ok ms → sniffWith (f :: fs) v = some ms)
    ∧ (∀ (f : Json → Except ConversionError (List Message))
         (fs : List (Json → Except ConversionError (List Message)))
         (v : Json) (e : ConversionError),
        f v = .error e → sniffWith (f :: fs) v = sniffWith fs v)
    ∧ (∀ v : Json,
        (candidateImporters.all fun f => !(exceptIsOk (f v))) = true →
        importSpanField (some v) = [])
    ∧ importSpanField none = [] := by
  refine ⟨fun s rest => rfl, ?_, ?_, ?_, rfl⟩
  · intro f fs v ms h
    simp [sniffWith, h]
  · intro f fs v e h
    simp [sniffWith, h]
  · intro v h
    simp only [importSpanField, sniffWith_all_fail candidateImporters v h, Option.getD]

/-- C8 witness: the structural parts at concrete values — a concrete
span contributes input before output; the first candidate's success is
taken; a first-candidate failure falls through; a payload every
candidate rejects is skipped. -/
theorem span_import_best_effort_witness :
    import_messages_from_spans
        [⟨some (.arr [.obj [("role", .str "user"), ("content", .str "Hello")]]), none⟩]
      = importSpanField
          (some (.arr [.obj [("role", .str "user"), ("content", .str "Hello")]]))
          ++ importSpanField none ++ import_messages_from_spans []
    ∧ sniffWith [chatPayloadImport] (.arr []) = some []
    ∧ sniffWith [chatPayloadImport] .null = sniffWith [] .null
    ∧ importSpanField (some (.num 3)) = [] :=
  ⟨span_import_best_effort.1 _ _,
   span_import_best_effort.2.1 chatPayloadImport [] (.arr []) [] rfl,
   span_import_best_effort.2.2.1 chatPayloadImport [] .null (.conversion "payload") rfl,
   span_import_best_effort.2.2.2.1 (.num 3) (by decide)⟩

/-- C9: the convenience entry point is exactly deduplication composed
with span import. -/
theorem import_and_deduplicate_composition :
    ∀ spans : List Span,
      import_and_deduplicate_messages spans
        = deduplicate_messages (import_messages_from_spans spans) :=
  fun _ => rfl
